import Mathlib

/-!
Verification of the YouTube transcript tool (`app.py`).

Strings are embedded as `List Char` (Python `str` is a sequence of code
points). The regular-expression search
`re.search(r"(?:v=|/)([0-9A-Za-z_-]{11})", url)` is embedded as a
position-by-position scan (`reSearch`): at each position the alternation
`v=` / `/` is tried, followed by exactly eleven characters of the class
`[0-9A-Za-z_-]`; the first (leftmost) successful position wins, exactly as
`re.search` does for this backtracking-free pattern. The match object is
modelled as the pair (start index of capture group 1, captured substring);
`extract_video_id` returns `group(1)`.

The external call `YouTubeTranscriptApi.get_transcript` is an oracle
parameter returning either an error description or the ordered list of
segment records; `fetch_transcript` joins the `text` fields with `"\n"`
(Python `"\n".join`, embedded as `List.intercalate`). The Streamlit calls
made by `main` are recorded as a trace of UI events plus two flags saying
whether the extractor and the fetcher were invoked.
-/

namespace TranscriptTool

/-- The character class `[0-9A-Za-z_-]` of the regular expression in
`extract_video_id` (`app.py` line 38). -/
def isIdChar (c : Char) : Bool :=
  (decide (48 ≤ c.toNat) && decide (c.toNat ≤ 57)) ||
  (decide (65 ≤ c.toNat) && decide (c.toNat ≤ 90)) ||
  (decide (97 ≤ c.toNat) && decide (c.toNat ≤ 122)) ||
  c = '_' || c = '-'

/-- `[0-9A-Za-z_-]{11}`: a run of exactly eleven characters of the class. -/
def validRun (cs : List Char) : Bool :=
  decide (cs.length = 11) && cs.all isIdChar

/-- One attempt of the pattern `(?:v=|/)([0-9A-Za-z_-]{11})` at the start of
`s`. On success it returns the offset of capture group 1 from the attempt
position (2 after `v=`, 1 after `/`) and the captured run. The alternation
tries `v=` first, then `/`, as in the source pattern; the two branches are
mutually exclusive (`v` vs `/` as first character). -/
def matchAt (s : List Char) : Option (Nat × List Char) :=
  if s.take 2 = ['v', '='] then
    if validRun ((s.drop 2).take 11) then some (2, (s.drop 2).take 11) else none
  else if s.take 1 = ['/'] then
    if validRun ((s.drop 1).take 11) then some (1, (s.drop 1).take 11) else none
  else none

/-- `re.search`: try the pattern at position 0, 1, 2, ... and return the
first success, as (absolute start of capture group 1, captured run). -/
def reSearch : List Char → Option (Nat × List Char)
  | [] => none
  | c :: rest =>
    match matchAt (c :: rest) with
    | some pr => some pr
    | none => (reSearch rest).map (fun pr => (pr.1 + 1, pr.2))

/-- `extract_video_id` (`app.py` lines 28–40): `match.group(1)` of the first
match, else `None`. -/
def extract_video_id (url : List Char) : Option (List Char) :=
  (reSearch url).map Prod.snd

/-- `runPos s p` says: an occurrence of the pattern has its capture group
starting at index `p` of `s`, i.e. index `p` is immediately preceded by the
literal `v=` or by `/`, and eleven characters of the class `[0-9A-Za-z_-]`
start at `p`. -/
def runPos (s : List Char) (p : Nat) : Prop :=
  ((2 ≤ p ∧ (s.drop (p - 2)).take 2 = ['v', '=']) ∨
   (1 ≤ p ∧ (s.drop (p - 1)).take 1 = ['/'])) ∧
  validRun ((s.drop p).take 11) = true

instance (s : List Char) (p : Nat) : Decidable (runPos s p) := by
  unfold runPos; exact inferInstance

/-- One caption segment record returned by the external transcript service;
only its `text` field is consumed by the program. -/
structure Segment where
  text : List Char
deriving DecidableEq

/-- The external retrieval capability `YouTubeTranscriptApi.get_transcript`:
for a video id it either raises (error description) or returns the ordered
segment list. -/
def Fetcher : Type :=
  List Char → Except (List Char) (List Segment)

/-- `fetch_transcript` (`app.py` lines 43–59): call the external service,
then `"\n".join(entry["text"] for entry in transcript_list)`. An exception
of the external call propagates. -/
def fetch_transcript (get_transcript : Fetcher) (video_id : List Char) :
    Except (List Char) (List Char) :=
  match get_transcript video_id with
  | .error e => .error e
  | .ok transcript_list =>
      .ok (List.intercalate ['\n'] (transcript_list.map Segment.text))

/-- Modelled from the spec's wording of transcript assembly: the explicit
right fold `t1 ++ "\n" ++ t2 ++ ... ++ "\n" ++ tN`, empty for `N = 0`; to be
compared with the `"\n".join` of the source. -/
def specJoin : List (List Char) → List Char
  | [] => []
  | [t] => t
  | t :: u :: ts => t ++ '\n' :: specJoin (u :: ts)

/-- Message of `st.error` on empty input (`app.py` line 82). -/
def msgEmpty : List Char :=
  "Please enter a YouTube URL.".toList

/-- Message of `st.error` on failed extraction (`app.py` line 87). -/
def msgInvalid : List Char :=
  "Invalid YouTube URL. Please check the link and try again.".toList

/-- Message of `st.error` on a fetch failure: the f-string
`f"Sorry, there was a problem fetching the transcript: {exc}."`
(`app.py` line 96), which appends a final period after the description. -/
def fetchErrorMessage (exc : List Char) : List Char :=
  "Sorry, there was a problem fetching the transcript: ".toList ++ exc ++ ['.']

/-- Message of `st.success` on the success path (`app.py` line 101). -/
def msgFetched : List Char :=
  "Transcript fetched successfully!".toList

/-- Message of `st.write` on the success path (`app.py` line 102). -/
def msgBelow : List Char :=
  "Below is the transcript of your video. You can scroll and copy.".toList

/-- File name offered by the download button (`app.py` line 109). -/
def txtFileName : List Char :=
  "youtube_transcript.txt".toList

/-- The observable Streamlit calls made inside the button handler. -/
inductive UIEvent where
  | errorBox (msg : List Char)
  | successBox (msg : List Char)
  | writeLine (msg : List Char)
  | textArea (content : List Char)
  | downloadButton (data fileName : List Char)
deriving DecidableEq

/-- What one button press does: whether `extract_video_id` ran, whether
`fetch_transcript` ran, and the UI events emitted, in order. -/
structure FlowTrace where
  extractorCalled : Bool
  fetcherCalled : Bool
  events : List UIEvent
deriving DecidableEq

/-- The body of the `st.button` branch of `main` (`app.py` lines 80–111):
empty input short-circuits with `msgEmpty`; failed extraction with
`msgInvalid`; a fetch exception with `fetchErrorMessage`; otherwise the
transcript is shown and offered for download. Python's `if not video_url`
is the emptiness test on the string. -/
def mainFlow (video_url : List Char) (get_transcript : Fetcher) : FlowTrace :=
  if video_url = [] then
    ⟨false, false, [.errorBox msgEmpty]⟩
  else
    match extract_video_id video_url with
    | none => ⟨true, false, [.errorBox msgInvalid]⟩
    | some video_id =>
      match fetch_transcript get_transcript video_id with
      | .error exc => ⟨true, true, [.errorBox (fetchErrorMessage exc)]⟩
      | .ok transcript =>
          ⟨true, true,
            [.successBox msgFetched, .writeLine msgBelow,
             .textArea transcript, .downloadButton transcript txtFileName]⟩

/-- A fetcher that always fails with an empty description. -/
def emptyFetcher : Fetcher := fun _ => .error []

/-- A fetcher returning the two segments of the spec's concrete scenario 5. -/
def helloWorldFetcher : Fetcher :=
  fun _ => .ok [Segment.mk "Hello".toList, Segment.mk "world".toList]

/-- A fetcher that always fails with `"No transcripts available"`. -/
def noTranscriptFetcher : Fetcher :=
  fun _ => .error "No transcripts available".toList

/-- Soundness of one pattern attempt: a successful `matchAt` found `v=` or
`/` at the attempt position and captured the eleven class characters that
follow. -/
lemma matchAt_sound {s : List Char} {off : Nat} {r : List Char}
    (h : matchAt s = some (off, r)) :
    ((off = 2 ∧ s.take 2 = ['v', '=']) ∨ (off = 1 ∧ s.take 1 = ['/'])) ∧
    validRun r = true ∧ r = (s.drop off).take 11 := by
  unfold matchAt at h
  split_ifs at h with h1 h2 h3 h4
  · simp only [Option.some.injEq, Prod.mk.injEq] at h
    obtain ⟨rfl, rfl⟩ := h
    exact ⟨.inl ⟨rfl, h1⟩, h2, rfl⟩
  · simp only [Option.some.injEq, Prod.mk.injEq] at h
    obtain ⟨rfl, rfl⟩ := h
    exact ⟨.inr ⟨rfl, h3⟩, h4, rfl⟩

/-- Completeness of one attempt, `v=` branch. -/
lemma matchAt_some_of_vEq {s : List Char} (h2 : s.take 2 = ['v', '='])
    (hv : validRun ((s.drop 2).take 11) = true) :
    matchAt s = some (2, (s.drop 2).take 11) := by
  unfold matchAt
  rw [if_pos h2, if_pos hv]

/-- Completeness of one attempt, `/` branch. -/
lemma matchAt_some_of_slash {s : List Char} (h1 : s.take 1 = ['/'])
    (hv : validRun ((s.drop 1).take 11) = true) :
    matchAt s = some (1, (s.drop 1).take 11) := by
  unfold matchAt
  have hne : ¬ s.take 2 = ['v', '='] := by
    intro hc
    cases s with
    | nil => simp at h1
    | cons a t =>
      simp only [List.take_succ_cons, List.take_zero, List.cons.injEq] at h1 hc
      rw [h1.1] at hc
      exact absurd hc.1 (by decide)
  rw [if_neg hne, if_pos h1, if_pos hv]

/-- A successful attempt at position `i` of `s` is an occurrence at the
corresponding absolute capture position. -/
lemma runPos_of_matchAt_drop {s : List Char} {i off : Nat} {r : List Char}
    (h : matchAt (s.drop i) = some (off, r)) : runPos s (i + off) := by
  obtain ⟨hpre, hval, hr⟩ := matchAt_sound h
  rcases hpre with ⟨rfl, hh⟩ | ⟨rfl, hh⟩
  · refine ⟨.inl ⟨by omega, ?_⟩, ?_⟩
    · rw [show i + 2 - 2 = i from by omega]
      exact hh
    · rw [hr] at hval
      rwa [List.drop_drop] at hval
  · refine ⟨.inr ⟨by omega, ?_⟩, ?_⟩
    · rw [show i + 1 - 1 = i from by omega]
      exact hh
    · rw [hr] at hval
      rwa [List.drop_drop] at hval

/-- Shifting an occurrence under one extra leading character. -/
lemma runPos_shift_up {c : Char} {rest : List Char} {p : Nat}
    (h : runPos rest p) : runPos (c :: rest) (p + 1) := by
  obtain ⟨hpre, hval⟩ := h
  constructor
  · rcases hpre with ⟨hp, hvq⟩ | ⟨hp, hsl⟩
    · left
      obtain ⟨k, rfl⟩ : ∃ k, p = k + 2 := ⟨p - 2, by omega⟩
      refine ⟨by omega, ?_⟩
      rw [show k + 2 + 1 - 2 = k + 1 from by omega, List.drop_succ_cons]
      rw [show k + 2 - 2 = k from by omega] at hvq
      exact hvq
    · right
      obtain ⟨k, rfl⟩ : ∃ k, p = k + 1 := ⟨p - 1, by omega⟩
      refine ⟨by omega, ?_⟩
      rw [show k + 1 + 1 - 1 = k + 1 from by omega, List.drop_succ_cons]
      rw [show k + 1 - 1 = k from by omega] at hsl
      exact hsl
  · rw [List.drop_succ_cons]
    exact hval

/-- Case analysis of an occurrence in `c :: rest`: either the pattern
already succeeds at position 0, or the occurrence lives in `rest`, shifted
by one. -/
lemma runPos_cons {c : Char} {rest : List Char} {q : Nat}
    (h : runPos (c :: rest) q) :
    matchAt (c :: rest) ≠ none ∨ (2 ≤ q ∧ runPos rest (q - 1)) := by
  obtain ⟨hpre, hval⟩ := h
  rcases hpre with ⟨hq, hvq⟩ | ⟨hq, hsl⟩
  · rcases Nat.lt_or_ge q 3 with h3 | h3
    · have hq2 : q = 2 := by omega
      subst hq2
      left
      rw [matchAt_some_of_vEq (by simpa using hvq) (by simpa using hval)]
      simp
    · right
      obtain ⟨k, rfl⟩ : ∃ k, q = k + 3 := ⟨q - 3, by omega⟩
      refine ⟨by omega, .inl ⟨by omega, ?_⟩, ?_⟩
      · rw [show k + 3 - 2 = k + 1 from by omega, List.drop_succ_cons] at hvq
        rw [show k + 3 - 1 - 2 = k from by omega]
        exact hvq
      · rw [show (k + 3 : Nat) = (k + 2) + 1 from by omega, List.drop_succ_cons] at hval
        rw [show k + 3 - 1 = k + 2 from by omega]
        exact hval
  · rcases Nat.lt_or_ge q 2 with h2 | h2
    · have hq1 : q = 1 := by omega
      subst hq1
      left
      rw [matchAt_some_of_slash (by simpa using hsl) (by simpa using hval)]
      simp
    · right
      obtain ⟨k, rfl⟩ : ∃ k, q = k + 2 := ⟨q - 2, by omega⟩
      refine ⟨by omega, .inr ⟨by omega, ?_⟩, ?_⟩
      · rw [show k + 2 - 1 = k + 1 from by omega, List.drop_succ_cons] at hsl
        rw [show k + 2 - 1 - 1 = k from by omega]
        exact hsl
      · rw [show (k + 2 : Nat) = (k + 1) + 1 from by omega, List.drop_succ_cons] at hval
        rw [show k + 2 - 1 = k + 1 from by omega]
        exact hval

/-- Soundness of the scan: a successful `re.search` returns the capture of
an occurrence, and that occurrence is the leftmost one. -/
lemma reSearch_sound {s : List Char} {p : Nat} {r : List Char}
    (h : reSearch s = some (p, r)) :
    runPos s p ∧ r = (s.drop p).take 11 ∧ ∀ q, runPos s q → p ≤ q := by
  induction s generalizing p r with
  | nil => simp [reSearch] at h
  | cons c rest ih =>
    cases hm : matchAt (c :: rest) with
    | some pr =>
      obtain ⟨off, r0⟩ := pr
      simp only [reSearch, hm, Option.some.injEq, Prod.mk.injEq] at h
      obtain ⟨rfl, rfl⟩ := h
      obtain ⟨hpre, hval, hr⟩ := matchAt_sound hm
      refine ⟨?_, hr, ?_⟩
      · have h0 := runPos_of_matchAt_drop (i := 0) (by simpa using hm)
        simpa using h0
      · intro q hq
        rcases hpre with ⟨rfl, hv2⟩ | ⟨rfl, hv1⟩
        · obtain ⟨hpq, hvalq⟩ := hq
          rcases hpq with ⟨hq2, _⟩ | ⟨hq1, hsl⟩
          · exact hq2
          · by_contra hlt
            push_neg at hlt
            have hq1' : q = 1 := by omega
            subst hq1'
            simp only [Nat.sub_self, List.drop_zero, List.take_succ_cons,
              List.take_zero, List.cons.injEq, and_true] at hsl hv2
            rw [hsl] at hv2
            exact absurd hv2.1 (by decide)
        · obtain ⟨hpq, _⟩ := hq
          rcases hpq with ⟨hq2, _⟩ | ⟨hq1, _⟩
          · omega
          · omega
    | none =>
      simp only [reSearch, hm] at h
      cases hres : reSearch rest with
      | none => rw [hres] at h; simp at h
      | some pr' =>
        obtain ⟨p', r'⟩ := pr'
        rw [hres] at h
        simp only [Option.map_some', Option.some.injEq, Prod.mk.injEq] at h
        obtain ⟨rfl, rfl⟩ := h
        obtain ⟨ih1, ih2, ih3⟩ := ih hres
        refine ⟨runPos_shift_up ih1, ?_, ?_⟩
        · rw [ih2, List.drop_succ_cons]
        · intro q hq
          rcases runPos_cons hq with hne | ⟨hq2, hq'⟩
          · exact absurd hm hne
          · have := ih3 _ hq'
            omega

/-- If the scan fails, there is no occurrence anywhere in the input. -/
lemma reSearch_none_sound {s : List Char} (h : reSearch s = none) :
    ∀ q, ¬ runPos s q := by
  induction s with
  | nil =>
    intro q hq
    obtain ⟨_, hval⟩ := hq
    simp [validRun] at hval
  | cons c rest ih =>
    intro q hq
    cases hm : matchAt (c :: rest) with
    | some pr => simp [reSearch, hm] at h
    | none =>
      simp only [reSearch, hm] at h
      have h' : reSearch rest = none := by
        cases hres : reSearch rest with
        | none => rfl
        | some pr' => rw [hres] at h; simp at h
      rcases runPos_cons hq with hne | ⟨_, hq'⟩
      · exact hne hm
      · exact ih h' _ hq'

/-- An occurrence bounds itself inside the input: eleven class characters
must fit after it. -/
lemma runPos_lt_length {s : List Char} {q : Nat} (h : runPos s q) :
    q < s.length := by
  obtain ⟨_, hval⟩ := h
  simp only [validRun, Bool.and_eq_true, decide_eq_true_eq, List.length_take,
    List.length_drop] at hval
  omega

/-- If no position below the length of the input is an occurrence, the
extraction returns `None`. -/
lemma extract_eq_none_of_no_runPos {s : List Char}
    (h : ∀ q, q < s.length → ¬ runPos s q) : extract_video_id s = none := by
  have hall : ∀ q, ¬ runPos s q := by
    intro q
    by_cases hq : q < s.length
    · exact h q hq
    · intro hr
      exact absurd (runPos_lt_length hr) hq
  cases hres : reSearch s with
  | none => simp [extract_video_id, hres]
  | some pr =>
    obtain ⟨p, r⟩ := pr
    exact absurd (reSearch_sound hres).1 (hall p)

/-- If some occurrence exists, the scan succeeds. -/
lemma reSearch_isSome_of_runPos {s : List Char} {q : Nat} (h : runPos s q) :
    ∃ pr, reSearch s = some pr := by
  cases hres : reSearch s with
  | none => exact absurd h (reSearch_none_sound hres q)
  | some pr => exact ⟨pr, rfl⟩

/-- `"\n".join` of the source equals the explicit fold of the spec. -/
lemma intercalate_eq_specJoin (ts : List (List Char)) :
    List.intercalate ['\n'] ts = specJoin ts := by
  induction ts with
  | nil => rfl
  | cons t ts ih =>
    cases ts with
    | nil => simp [List.intercalate, specJoin]
    | cons u ts' =>
      simp only [List.intercalate] at ih ⊢
      rw [List.intersperse_cons₂, List.flatten_cons, List.flatten_cons, ih]
      simp [specJoin]

/-- A string of whitespace characters holds no occurrence: the characters
`v` and `/` are not whitespace. -/
lemma no_runPos_of_whitespace {s : List Char}
    (hw : s.all Char.isWhitespace = true) : ∀ q, ¬ runPos s q := by
  rw [List.all_eq_true] at hw
  intro q hq
  obtain ⟨hpre, _⟩ := hq
  rcases hpre with ⟨_, hv⟩ | ⟨_, hs⟩
  · have hvmem : 'v' ∈ (s.drop (q - 2)).take 2 := by rw [hv]; simp
    have hmem : 'v' ∈ s := List.mem_of_mem_drop (List.mem_of_mem_take hvmem)
    exact absurd (hw _ hmem) (by decide)
  · have hsmem : '/' ∈ (s.drop (q - 1)).take 1 := by rw [hs]; simp
    have hmem : '/' ∈ s := List.mem_of_mem_drop (List.mem_of_mem_take hsmem)
    exact absurd (hw _ hmem) (by decide)

/-- C1: an input containing an occurrence of `v=` or `/` immediately
followed by 11 characters of `[0-9A-Za-z_-]` makes `extract_video_id`
return (not `None`) exactly such an 11-character substring — the leftmost
occurrence, which is the occurrence itself whenever it is unique. -/
theorem claim1_extract_finds_prefixed_run (s : List Char) (q : Nat)
    (h : runPos s q) :
    ∃ p, runPos s p ∧ p ≤ q ∧
      extract_video_id s = some ((s.drop p).take 11) := by
  obtain ⟨⟨p, r⟩, hres⟩ := reSearch_isSome_of_runPos h
  obtain ⟨h1, h2, h3⟩ := reSearch_sound hres
  refine ⟨p, h1, h3 q h, ?_⟩
  unfold extract_video_id
  rw [hres, Option.map_some']
  rw [h2]

/-- Witness for C1 at the standard watch URL, whose capture starts at
index 32. -/
theorem claim1_witness :
    ∃ p, runPos "https://www.youtube.com/watch?v=dQw4w9WgXcQ".toList p ∧
      p ≤ 32 ∧
      extract_video_id "https://www.youtube.com/watch?v=dQw4w9WgXcQ".toList =
        some (("https://www.youtube.com/watch?v=dQw4w9WgXcQ".toList.drop p).take 11) :=
  claim1_extract_finds_prefixed_run _ 32 (by decide)

/-- C2: a non-`None` result of `extract_video_id` has exactly 11 characters,
all from `[0-9A-Za-z_-]`, occurs immediately after `v=` or `/` in the input,
and among all such candidate runs it is the leftmost one. -/
theorem claim2_extract_result_is_leftmost_run (s r : List Char)
    (h : extract_video_id s = some r) :
    r.length = 11 ∧ r.all isIdChar = true ∧
    ∃ p, runPos s p ∧ r = (s.drop p).take 11 ∧ ∀ q, runPos s q → p ≤ q := by
  unfold extract_video_id at h
  cases hres : reSearch s with
  | none => rw [hres] at h; exact Option.noConfusion h
  | some pr =>
    obtain ⟨p, r0⟩ := pr
    rw [hres, Option.map_some'] at h
    have hr0 : r0 = r := by simpa using h
    subst hr0
    obtain ⟨h1, h2, h3⟩ := reSearch_sound hres
    have hval : validRun r0 = true := by rw [h2]; exact h1.2
    simp only [validRun, Bool.and_eq_true, decide_eq_true_eq] at hval
    exact ⟨hval.1, hval.2, p, h1, h2, h3⟩

/-- Witness for C2 at the short-URL scenario. -/
theorem claim2_witness :
    "dQw4w9WgXcQ".toList.length = 11 ∧
    "dQw4w9WgXcQ".toList.all isIdChar = true ∧
    ∃ p, runPos "https://youtu.be/dQw4w9WgXcQ?t=5".toList p ∧
      "dQw4w9WgXcQ".toList =
        ("https://youtu.be/dQw4w9WgXcQ?t=5".toList.drop p).take 11 ∧
      ∀ q, runPos "https://youtu.be/dQw4w9WgXcQ?t=5".toList q → p ≤ q :=
  claim2_extract_result_is_leftmost_run _ _ (by decide)

/-- C3: whenever the external retrieval call returns segments `t1..tN`,
`fetch_transcript` returns `t1 ++ "\n" ++ t2 ++ ... ++ "\n" ++ tN` (and the
empty string for `N = 0`, by `specJoin []  = []`). -/
theorem claim3_fetch_transcript_joins (get_transcript : Fetcher)
    (video_id : List Char) (segs : List Segment)
    (h : get_transcript video_id = .ok segs) :
    fetch_transcript get_transcript video_id =
      .ok (specJoin (segs.map Segment.text)) := by
  simp only [fetch_transcript, h]
  rw [intercalate_eq_specJoin]

/-- Witness for C3: the spec's concrete scenario 5 yields
`"Hello\nworld"`. -/
theorem claim3_witness :
    fetch_transcript helloWorldFetcher "dQw4w9WgXcQ".toList =
      .ok (specJoin
        ([Segment.mk "Hello".toList, Segment.mk "world".toList].map
          Segment.text)) :=
  claim3_fetch_transcript_joins helloWorldFetcher "dQw4w9WgXcQ".toList _ rfl

/-- C4: an input with no occurrence of `v=` or `/` immediately followed by
11 class characters makes `extract_video_id` return `None`. (Positions at
or beyond the length of the input can hold no occurrence, see
`runPos_lt_length`.) -/
theorem claim4_extract_none_without_occurrence (s : List Char)
    (h : ∀ q, q < s.length → ¬ runPos s q) : extract_video_id s = none :=
  extract_eq_none_of_no_runPos h

/-- Witness for C4 at the bare 11-character video id, which has no `v=` or
`/` prefix and therefore does not match. -/
theorem claim4_witness : extract_video_id "dQw4w9WgXcQ".toList = none :=
  claim4_extract_none_without_occurrence "dQw4w9WgXcQ".toList (by decide)

/-- C5: the two concrete URLs of the spec both extract to `dQw4w9WgXcQ`;
in the second one the query parameter `?t=5` after the id does not prevent
the match. -/
theorem claim5_concrete_urls :
    extract_video_id "https://www.youtube.com/watch?v=dQw4w9WgXcQ".toList =
      some "dQw4w9WgXcQ".toList ∧
    extract_video_id "https://youtu.be/dQw4w9WgXcQ?t=5".toList =
      some "dQw4w9WgXcQ".toList :=
  ⟨by decide, by decide⟩

/-- C6: on an empty input the flow emits exactly the message
`Please enter a YouTube URL.` with neither the extractor nor the fetcher
invoked; on a non-empty input whose extraction fails it emits exactly
`Invalid YouTube URL. Please check the link and try again.` with the
fetcher not invoked. -/
theorem claim6_empty_and_invalid_paths :
    (∀ g : Fetcher, mainFlow [] g = ⟨false, false, [.errorBox msgEmpty]⟩) ∧
    (∀ (url : List Char) (g : Fetcher), url ≠ [] →
      extract_video_id url = none →
      mainFlow url g = ⟨true, false, [.errorBox msgInvalid]⟩) := by
  constructor
  · intro g
    simp [mainFlow]
  · intro url g h1 h2
    unfold mainFlow
    rw [if_neg h1, h2]

/-- Witness for C6: the empty input, and the spec's scenario `not a url`. -/
theorem claim6_witness :
    mainFlow [] emptyFetcher = ⟨false, false, [.errorBox msgEmpty]⟩ ∧
    mainFlow "not a url".toList emptyFetcher =
      ⟨true, false, [.errorBox msgInvalid]⟩ :=
  ⟨claim6_empty_and_invalid_paths.1 emptyFetcher,
   claim6_empty_and_invalid_paths.2 "not a url".toList emptyFetcher
     (by decide) (by decide)⟩

/-- C7: when extraction succeeds and the external call fails with
description `d`, the flow emits exactly one error message, the prefix
`Sorry, there was a problem fetching the transcript: ` followed by `d` and
the final period of the f-string, and nothing is displayed or offered for
download. -/
theorem claim7_fetch_error_path (url video_id d : List Char) (g : Fetcher)
    (hx : extract_video_id url = some video_id) (hg : g video_id = .error d) :
    mainFlow url g = ⟨true, true, [.errorBox (fetchErrorMessage d)]⟩ := by
  have h1 : url ≠ [] := by
    rintro rfl
    exact Option.noConfusion hx
  simp [mainFlow, fetch_transcript, h1, hx, hg]

/-- Witness for C7: the description `No transcripts available` produces the
message of the spec's concrete scenario 6, final period included. -/
theorem claim7_witness :
    mainFlow "https://www.youtube.com/watch?v=dQw4w9WgXcQ".toList
        noTranscriptFetcher =
      ⟨true, true,
        [.errorBox
          "Sorry, there was a problem fetching the transcript: No transcripts available.".toList]⟩ := by
  have h := claim7_fetch_error_path
    "https://www.youtube.com/watch?v=dQw4w9WgXcQ".toList
    "dQw4w9WgXcQ".toList "No transcripts available".toList
    noTranscriptFetcher (by decide) rfl
  rw [h]
  decide

/-- C8: `extract_video_id` is deterministic (equal inputs give equal
results) and total (it always yields a value; the embedding is a total
structurally recursive function, so it terminates and never throws). -/
theorem claim8_extract_pure_total (s t : List Char) (h : t = s) :
    extract_video_id t = extract_video_id s ∧
    ∃ r : Option (List Char), extract_video_id s = r :=
  ⟨by rw [h], ⟨extract_video_id s, rfl⟩⟩

/-- Witness for C8 at a concrete input. -/
theorem claim8_witness :
    extract_video_id "https://youtu.be/dQw4w9WgXcQ?t=5".toList =
      extract_video_id "https://youtu.be/dQw4w9WgXcQ?t=5".toList ∧
    ∃ r : Option (List Char),
      extract_video_id "https://youtu.be/dQw4w9WgXcQ?t=5".toList = r :=
  claim8_extract_pure_total _ _ rfl

/-- C9: a run of twelve or more class characters after `v=` or `/` is not
rejected: the pattern matches there, captures exactly the first 11
characters of the run, and the extraction as a whole succeeds. -/
theorem claim9_overlong_run_matches (s rest : List Char) (i : Nat)
    (h : s.drop i = 'v' :: '=' :: rest ∨ s.drop i = '/' :: rest)
    (hlen : 12 ≤ rest.length) (hall : (rest.take 12).all isIdChar = true) :
    (∃ off, matchAt (s.drop i) = some (off, rest.take 11)) ∧
    ∃ r, extract_video_id s = some r := by
  have hrun : validRun (rest.take 11) = true := by
    simp only [validRun, Bool.and_eq_true, decide_eq_true_eq]
    constructor
    · rw [List.length_take]
      omega
    · rw [List.all_eq_true] at hall ⊢
      intro x hx
      apply hall
      have h11 : rest.take 11 = (rest.take 12).take 11 := by
        rw [List.take_take]
        norm_num
      rw [h11] at hx
      exact List.mem_of_mem_take hx
  have hsome : ∃ off, matchAt (s.drop i) = some (off, rest.take 11) := by
    rcases h with hv | hs
    · refine ⟨2, ?_⟩
      rw [hv]
      exact matchAt_some_of_vEq rfl hrun
    · refine ⟨1, ?_⟩
      rw [hs]
      exact matchAt_some_of_slash rfl hrun
  obtain ⟨off, hm⟩ := hsome
  have hrp := runPos_of_matchAt_drop hm
  obtain ⟨⟨p', r'⟩, hres⟩ := reSearch_isSome_of_runPos hrp
  refine ⟨⟨off, hm⟩, r', ?_⟩
  unfold extract_video_id
  rw [hres, Option.map_some']

/-- Witness for C9: a 12-character run after `v=`; the first 11 characters
are captured. -/
theorem claim9_witness :
    (∃ off, matchAt ("v=dQw4w9WgXcQ2".toList.drop 0) =
      some (off, "dQw4w9WgXcQ2".toList.take 11)) ∧
    ∃ r, extract_video_id "v=dQw4w9WgXcQ2".toList = some r :=
  claim9_overlong_run_matches "v=dQw4w9WgXcQ2".toList "dQw4w9WgXcQ2".toList 0
    (.inl rfl) (by decide) (by decide)

/-- C10: the emptiness test of `main` (Python `if not video_url`) is an
exact emptiness test: a non-empty all-whitespace input is not reported as
empty; the extractor runs, finds nothing, and the invalid-URL message is
shown. -/
theorem claim10_whitespace_is_invalid_not_empty (url : List Char)
    (g : Fetcher) (h1 : url ≠ []) (h2 : url.all Char.isWhitespace = true) :
    extract_video_id url = none ∧
    mainFlow url g = ⟨true, false, [.errorBox msgInvalid]⟩ := by
  have hnone : extract_video_id url = none :=
    extract_eq_none_of_no_runPos (fun q _ => no_runPos_of_whitespace h2 q)
  refine ⟨hnone, ?_⟩
  unfold mainFlow
  rw [if_neg h1, hnone]

/-- Witness for C10 at three spaces. -/
theorem claim10_witness :
    extract_video_id "   ".toList = none ∧
    mainFlow "   ".toList emptyFetcher =
      ⟨true, false, [.errorBox msgInvalid]⟩ :=
  claim10_whitespace_is_invalid_not_empty "   ".toList emptyFetcher
    (by decide) (by decide)

end TranscriptTool
